import Mathlib

/-!
Verification development for the local Whisper backend orchestrator
(`whisperManager.js`).  JavaScript functions are shallowly embedded as
executable Lean definitions; the ambient Node runtime (file system,
child processes, timers, promises) is modelled by explicit environment
records, event traces and state passing.
-/

namespace OpenTranscript

/-! ## JavaScript string primitives -/

/-- Whitespace characters recognised by JavaScript `String.prototype.trim`. -/
def isJsSpace (c : Char) : Bool :=
  c == ' ' || c == '\t' || c == '\n' || c == '\r' || c == '\x0b' ||
  c == '\x0c' || c == ' ' || c == '﻿'

/-- `String.prototype.trim` on a character list. -/
def jsTrimList (cs : List Char) : List Char :=
  ((cs.dropWhile isJsSpace).reverse.dropWhile isJsSpace).reverse

/-- JavaScript `s.trim()`. -/
def jsTrim (s : String) : String :=
  String.mk (jsTrimList s.toList)

/-- JavaScript `s.toLowerCase()` (ASCII range; the source only compares
ASCII signature strings). -/
def jsToLower (s : String) : String :=
  String.mk (s.toList.map Char.toLower)

/-- Does the needle occur as a contiguous sublist starting right here? -/
def beginsWith : List Char → List Char → Bool
  | [], _ => true
  | _ :: _, [] => false
  | a :: as, b :: bs => a == b && beginsWith as bs

/-- JavaScript `hay.includes(needle)` on character lists. -/
def listContainsSub (needle : List Char) : List Char → Bool
  | [] => needle.isEmpty
  | c :: cs => beginsWith needle (c :: cs) || listContainsSub needle cs

/-- JavaScript `hay.includes(needle)`. -/
def jsIncludes (hay needle : String) : Bool :=
  listContainsSub needle.toList hay.toList

/-- One pass of the global regex replace `/\x1B\[[0-9;]*m/g → ""`,
with fuel bounded by the input length (each step consumes at least one
character). -/
def stripAnsiGo : Nat → List Char → List Char
  | 0, cs => cs
  | _ + 1, [] => []
  | fuel + 1, c :: cs =>
    if c == '\x1b' then
      match cs with
      | '[' :: rest =>
        let ps := rest.takeWhile (fun ch => ch.isDigit || ch == ';')
        match rest.drop ps.length with
        | 'm' :: rest2 => stripAnsiGo fuel rest2
        | _ => c :: stripAnsiGo fuel cs
      | _ => c :: stripAnsiGo fuel cs
    else c :: stripAnsiGo fuel cs

/-- `sanitizeErrorMessage`: strips ANSI colour escape sequences; a falsy
(empty) message maps to the empty string. -/
def sanitizeErrorMessage (message : String) : String :=
  if message == "" then ""
  else String.mk (stripAnsiGo message.length message.toList)

/-- `shouldRetryWithUserInstall`: permission / externally-managed
environment signatures in the sanitized, lower-cased message. -/
def shouldRetryWithUserInstall (message : String) : Bool :=
  let normalized := jsToLower (sanitizeErrorMessage message)
  jsIncludes normalized "permission denied" ||
  jsIncludes normalized "access is denied" ||
  jsIncludes normalized "externally-managed-environment" ||
  jsIncludes normalized "externally managed environment" ||
  jsIncludes normalized "pep 668" ||
  jsIncludes normalized "--break-system-packages"

/-- `isTomlResolverError`: resolver / TOML parse failure signatures. -/
def isTomlResolverError (message : String) : Bool :=
  let normalized := jsToLower (sanitizeErrorMessage message)
  jsIncludes normalized "pyproject.toml" || jsIncludes normalized "tomlerror"

/-- `formatWhisperInstallError`: reformats known terminal failures. -/
def formatWhisperInstallError (message : String) : String :=
  let formatted :=
    if sanitizeErrorMessage message == "" then "Whisper installation failed."
    else sanitizeErrorMessage message
  let lower := jsToLower formatted
  if jsIncludes lower "microsoft visual c++" then
    "Microsoft Visual C++ build tools required. Install Visual Studio Build Tools."
  else if jsIncludes lower "no matching distribution" then
    "Python version incompatible. OpenAI Whisper requires Python 3.8-3.11."
  else formatted

/-! ## Interpreter discovery (`findPythonExecutable`, C1)

The candidate probe (`getPythonVersion`) spawns `<candidate> --version`;
its outcome for each candidate is abstracted as a `ProbeOutcome`
assignment carried by a `PyEnv`, together with the file-system existence
check and the platform's `path.isAbsolute`. -/

/-- Result of attempting to spawn `<candidate> --version`: either the
spawn errors, or the process exits with a code and a combined
stdout+stderr output string (both streams are appended to one buffer in
the source). -/
inductive ProbeOutcome where
  | spawnError : ProbeOutcome
  | exited (code : Int) (output : String) : ProbeOutcome

/-- Environment seen by interpreter resolution: `path.isAbsolute`,
`fs.existsSync`, and the per-candidate probe outcome. -/
structure PyEnv where
  isAbs : String → Bool
  fsExists : String → Bool
  probe : String → ProbeOutcome

/-- JavaScript `Number` of a non-empty digit string. -/
def natOfDigits (ds : List Char) : Nat :=
  ds.foldl (fun acc c => acc * 10 + (c.toNat - '0'.toNat)) 0

/-- Attempt of the regex `/Python (\d+)\.(\d+)/i` anchored at the head of
the list: case-insensitive literal `Python `, one maximal digit run, a
dot, a second maximal digit run.  (Backtracking cannot help this
pattern: a shorter digit run would put a digit where the dot must be.) -/
def pythonMatchAt (cs : List Char) : Option (Nat × Nat) :=
  if (cs.take 7).map Char.toLower == "python ".toList then
    let rest := cs.drop 7
    let d1 := rest.takeWhile Char.isDigit
    if d1.isEmpty then none
    else
      match rest.drop d1.length with
      | '.' :: rest2 =>
        let d2 := rest2.takeWhile Char.isDigit
        if d2.isEmpty then none else some (natOfDigits d1, natOfDigits d2)
      | _ => none
  else none

/-- Leftmost match of `/Python (\d+)\.(\d+)/i`, as `output.match` finds it. -/
def pythonVersionSearch : List Char → Option (Nat × Nat)
  | [] => none
  | c :: cs => (pythonMatchAt (c :: cs)).orElse (fun _ => pythonVersionSearch cs)

/-- `getPythonVersion`: resolves the parsed `{major, minor}` when the
probe process exits with code 0 and its combined output matches the
version pattern; resolves null (here `none`) on spawn error, non-zero
exit, or no match.  It never rejects. -/
def getPythonVersion (env : PyEnv) (p : String) : Option (Nat × Nat) :=
  match env.probe p with
  | .spawnError => none
  | .exited code output =>
    if code = 0 then pythonVersionSearch output.toList else none

/-- `isPythonVersionSupported`: `version && version.major === 3`. -/
def isPythonVersionSupported (v : Option (Nat × Nat)) : Bool :=
  match v with
  | some (major, _) => major == 3
  | none => false

/-- A candidate is skipped without probing when it is an absolute path
that does not exist on disk. -/
def pySkip (env : PyEnv) (c : String) : Bool :=
  env.isAbs c && !env.fsExists c

/-- A candidate is accepted when it is not skipped and its probe reports
a supported (major 3) version. -/
def pyAccept (env : PyEnv) (c : String) : Bool :=
  !pySkip env c && isPythonVersionSupported (getPythonVersion env c)

/-- The candidate loop of `findPythonExecutable` (run with an empty
`this.pythonCmd` cache): returns the resolved interpreter (`none` models
the thrown interpreter-not-found error) together with the list of
candidates that were actually probed, in probe order.  `getPythonVersion`
never rejects, so the source's `catch { continue }` is unreachable. -/
def findPythonExecutable (env : PyEnv) : List String → Option String × List String
  | [] => (none, [])
  | c :: rest =>
    if pySkip env c then findPythonExecutable env rest
    else if isPythonVersionSupported (getPythonVersion env c) then (some c, [c])
    else
      let (r, probed) := findPythonExecutable env rest
      (r, c :: probed)

/-- Helper: closed form of the candidate loop — the result is the first
accepted candidate, and the probed list is the non-skipped prefix up to
and including that candidate. -/
theorem findPythonExecutable_spec (env : PyEnv) (cs : List String) :
    findPythonExecutable env cs =
      (cs.find? (pyAccept env),
       (cs.takeWhile (fun c => !pyAccept env c)).filter
           (fun c => !pySkip env c) ++
         (cs.find? (pyAccept env)).toList) := by
  induction cs with
  | nil => rfl
  | cons c rest ih =>
    by_cases hs : pySkip env c
    · have hacc : pyAccept env c = false := by simp [pyAccept, hs]
      simp [findPythonExecutable, hs, hacc, List.find?_cons, ih]
    · by_cases hv : isPythonVersionSupported (getPythonVersion env c)
      · have hacc : pyAccept env c = true := by simp [pyAccept, hs, hv]
        simp [findPythonExecutable, hs, hv, hacc, List.find?_cons]
      · have hacc : pyAccept env c = false := by simp [pyAccept, hs, hv]
        simp [findPythonExecutable, hs, hv, hacc, List.find?_cons, ih]

/-- C1: for every candidate list and every assignment of version-probe
outcomes, `findPythonExecutable` returns the first candidate whose probe
reports a version with major 3; an absolute-path candidate that does not
exist on disk is skipped without being probed and a candidate whose
probe fails to spawn, exits non-zero, or whose combined stdout+stderr
does not match the case-insensitive `Python X.Y` pattern is skipped (the
probed list is exactly the non-skipped candidates up to and including
the first supported one, so nothing after the first supported candidate
is probed); the interpreter-not-found error (modelled as `none`) is
produced exactly when the list is exhausted with no supported candidate. -/
theorem c1_findPythonExecutable_first_supported (env : PyEnv) (cs : List String) :
    (findPythonExecutable env cs).1 = cs.find? (pyAccept env) ∧
    (findPythonExecutable env cs).2 =
      (cs.takeWhile (fun c => !pyAccept env c)).filter
          (fun c => !pySkip env c) ++
        (cs.find? (pyAccept env)).toList ∧
    ((findPythonExecutable env cs).1 = none ↔ ∀ c ∈ cs, ¬ pyAccept env c) := by
  refine ⟨by rw [findPythonExecutable_spec], by rw [findPythonExecutable_spec], ?_⟩
  rw [findPythonExecutable_spec]
  simp [List.find?_eq_none]

/-! ## Dependency installation (`installWhisper`, C4)

The pip invocations are abstracted by an oracle `exec` giving the
outcome of the n-th `pip install ... openai-whisper` command of the run
(`.error m` carries the thrown error's message).  The pip self-upgrade
preamble issues no package-install command and is not part of the
strategy chain. -/

/-- An install strategy: the flag combination passed to
`buildInstallArgs` (user scope, legacy resolver). -/
structure Strategy where
  user : Bool
  legacy : Bool
deriving DecidableEq, Repr

/-- `buildInstallArgs`: the pip command line for a strategy. -/
def buildInstallArgs (s : Strategy) : List String :=
  ["-m", "pip", "install"] ++
  (if s.legacy then ["--use-deprecated=legacy-resolver"] else []) ++
  (if s.user then ["--user"] else []) ++
  ["-U", "openai-whisper"]

/-- The package-install fallback chain of `installWhisper`
(`darwin` is `process.platform === "darwin"`): returns the final
outcome together with the list of strategies attempted, in order.  The
first attempt uses `user := darwin` (`defaultUseUser`). -/
def installWhisper (darwin : Bool) (exec : Nat → Except String Unit) :
    Except String Unit × List Strategy :=
  let s0 : Strategy := ⟨darwin, false⟩
  match exec 0 with
  | .ok _ => (.ok (), [s0])
  | .error e1 =>
    let cleanMessage := sanitizeErrorMessage e1
    if shouldRetryWithUserInstall cleanMessage then
      match exec 1 with
      | .ok _ => (.ok (), [s0, ⟨true, false⟩])
      | .error e2 =>
        let userMessage := sanitizeErrorMessage e2
        if isTomlResolverError userMessage then
          (exec 2, [s0, ⟨true, false⟩, ⟨true, true⟩])
        else
          (.error (formatWhisperInstallError userMessage), [s0, ⟨true, false⟩])
    else if isTomlResolverError cleanMessage then
      match exec 1 with
      | .ok _ => (.ok (), [s0, ⟨false, true⟩])
      | .error e2 =>
        let legacyMessage := sanitizeErrorMessage e2
        if shouldRetryWithUserInstall legacyMessage then
          (exec 2, [s0, ⟨false, true⟩, ⟨true, true⟩])
        else
          (.error (formatWhisperInstallError legacyMessage), [s0, ⟨false, true⟩])
    else
      (.error (formatWhisperInstallError cleanMessage), [s0])

/-- An environment in which every pip install attempt fails with a
permission-denied message. -/
def permFailExec : Nat → Except String Unit := fun _ => .error "permission denied"

/-- C4 counterexample: on darwin, when the initial (user-scoped) attempt
fails with a permission-denied message, the very same user-scoped
strategy is attempted a second time after having failed — refuting
"no install strategy is attempted a second time after that same
strategy has already failed". -/
theorem c4_counterexample_darwin_repeats_user_strategy :
    (installWhisper true permFailExec).2 =
      [⟨true, false⟩, ⟨true, false⟩] ∧
    ¬ (installWhisper true permFailExec).2.Nodup := by
  constructor
  · rfl
  · decide

/-- C4 amended: on every platform other than darwin no strategy is ever
attempted a second time after failing; on darwin the user-scoped
strategy is the first strategy attempted (rather than a fallback), the
attempts after the first are pairwise distinct, and the only possible
repetition is the initial user-scoped attempt being retried once, which
happens exactly when that first attempt fails with a
permission/managed-environment-classified message. -/
theorem c4_installWhisper_strategy_chain
    (darwin : Bool) (exec : Nat → Except String Unit) :
    (darwin = false → (installWhisper darwin exec).2.Nodup) ∧
    (darwin = true →
      (installWhisper darwin exec).2.head? = some ⟨true, false⟩ ∧
      ((installWhisper darwin exec).2.drop 1).Nodup ∧
      (¬ (installWhisper darwin exec).2.Nodup →
        ∃ m, exec 0 = .error m ∧
          shouldRetryWithUserInstall (sanitizeErrorMessage m) = true ∧
          (installWhisper darwin exec).2.take 2 =
            [⟨true, false⟩, ⟨true, false⟩])) := by
  constructor
  · intro hd
    subst hd
    cases h0 : exec 0 with
    | ok _ => simp [installWhisper, h0]
    | error e1 =>
      by_cases h1 : shouldRetryWithUserInstall (sanitizeErrorMessage e1)
      · cases h2 : exec 1 with
        | ok _ => simp [installWhisper, h0, h1, h2]
        | error e2 =>
          by_cases h3 : isTomlResolverError (sanitizeErrorMessage e2)
          · simp [installWhisper, h0, h1, h2, h3]
          · simp [installWhisper, h0, h1, h2, h3]
      · by_cases h2 : isTomlResolverError (sanitizeErrorMessage e1)
        · cases h3 : exec 1 with
          | ok _ => simp [installWhisper, h0, h1, h2, h3]
          | error e2 =>
            by_cases h4 : shouldRetryWithUserInstall (sanitizeErrorMessage e2)
            · simp [installWhisper, h0, h1, h2, h3, h4]
            · simp [installWhisper, h0, h1, h2, h3, h4]
        · simp [installWhisper, h0, h1, h2]
  · intro hd
    subst hd
    cases h0 : exec 0 with
    | ok _ =>
      refine ⟨by simp [installWhisper, h0], by simp [installWhisper, h0], ?_⟩
      intro hnd
      exact absurd (by simp [installWhisper, h0]) hnd
    | error e1 =>
      by_cases h1 : shouldRetryWithUserInstall (sanitizeErrorMessage e1)
      · cases h2 : exec 1 with
        | ok _ =>
          refine ⟨by simp [installWhisper, h0, h1, h2],
                  by simp [installWhisper, h0, h1, h2], ?_⟩
          intro _
          exact ⟨e1, rfl, by simp [h1], by simp [installWhisper, h0, h1, h2]⟩
        | error e2 =>
          by_cases h3 : isTomlResolverError (sanitizeErrorMessage e2)
          · refine ⟨by simp [installWhisper, h0, h1, h2, h3],
                    by simp [installWhisper, h0, h1, h2, h3], ?_⟩
            intro _
            exact ⟨e1, rfl, by simp [h1], by simp [installWhisper, h0, h1, h2, h3]⟩
          · refine ⟨by simp [installWhisper, h0, h1, h2, h3],
                    by simp [installWhisper, h0, h1, h2, h3], ?_⟩
            intro _
            exact ⟨e1, rfl, by simp [h1], by simp [installWhisper, h0, h1, h2, h3]⟩
      · by_cases h2 : isTomlResolverError (sanitizeErrorMessage e1)
        · cases h3 : exec 1 with
          | ok _ =>
            refine ⟨by simp [installWhisper, h0, h1, h2, h3],
                    by simp [installWhisper, h0, h1, h2, h3], ?_⟩
            intro hnd
            exact absurd (by simp [installWhisper, h0, h1, h2, h3]) hnd
          | error e2 =>
            by_cases h4 : shouldRetryWithUserInstall (sanitizeErrorMessage e2)
            · refine ⟨by simp [installWhisper, h0, h1, h2, h3, h4],
                      by simp [installWhisper, h0, h1, h2, h3, h4], ?_⟩
              intro hnd
              exact absurd (by simp [installWhisper, h0, h1, h2, h3, h4]) hnd
            · refine ⟨by simp [installWhisper, h0, h1, h2, h3, h4],
                      by simp [installWhisper, h0, h1, h2, h3, h4], ?_⟩
              intro hnd
              exact absurd (by simp [installWhisper, h0, h1, h2, h3, h4]) hnd
        · refine ⟨by simp [installWhisper, h0, h1, h2],
                  by simp [installWhisper, h0, h1, h2], ?_⟩
          intro hnd
          exact absurd (by simp [installWhisper, h0, h1, h2]) hnd

/-! ## Process settlement in `runWhisperProcess` (C2)

The promise executor installs three handlers: the timeout timer
callback, the `close` listener and the `error` listener.  Their effect
on the invocation is modelled as a state machine over event traces.
`promise` records the JavaScript promise's fate: the first
resolve/reject call fixes it, later calls are ignored by the runtime.
`settleCalls` counts every resolve/reject invocation made by the
handlers. -/

/-- A promise settlement: resolution with the accumulated stdout, or a
rejection message. -/
inductive Settlement where
  | resolved (stdout : String)
  | rejected (message : String)
deriving DecidableEq, Repr

/-- Events that can reach the invocation: the timeout timer firing, the
process `close` event (exit code, `none` for a signal-killed null
code), or the process `error` event (`enoent` is
`error.code === "ENOENT"`). -/
inductive RWEvent where
  | timeoutFire
  | close (code : Option Int)
  | procError (enoent : Bool) (message : String)
deriving DecidableEq, Repr

/-- Invocation state: the `isResolved` guard variable, the promise fate,
the number of resolve/reject calls, and whether SIGTERM was sent. -/
structure RWState where
  isResolved : Bool
  promise : Option Settlement
  settleCalls : Nat
  sigtermSent : Bool
deriving DecidableEq, Repr

/-- A resolve/reject call: always counted; fixes the promise only if it
is still pending (JavaScript promises ignore later calls). -/
def settle (s : RWState) (v : Settlement) : RWState :=
  { s with
    settleCalls := s.settleCalls + 1
    promise := match s.promise with
      | some w => some w
      | none => some v }

/-- The timeout rejection message. -/
def timeoutMessage : String := "Whisper transcription timed out (120 seconds)"

/-- The non-zero-exit rejection message, with the FFmpeg hint appended
when stderr matches the decoder failure signatures. -/
def closeErrorMessage (stderr : String) (code : Option Int) : String :=
  let codeStr := match code with
    | some n => toString n
    | none => "null"
  let base := "Whisper transcription failed (code " ++ codeStr ++ "): " ++ stderr
  if jsIncludes stderr "ffmpeg" || jsIncludes stderr "No such file or directory" ||
      jsIncludes stderr "FFmpeg not found" then
    base ++ "\n\nFFmpeg issue detected. Try restarting the app or reinstalling."
  else base

/-- The rejection message when spawning failed with ENOENT. -/
def pythonMissingMessage (win : Bool) : String :=
  let platformHelp :=
    if win then
      "Install Python 3.11+ from python.org with the \"Install launcher\" option, or set OPENWHISPR_PYTHON to the full path (for example C:\\\\Python312\\\\python.exe)."
    else
      "Install Python 3.11+ (for example `brew install python@3.11`) or set OPENWHISPR_PYTHON to the interpreter you want OpenWhispr to use."
  let fallbackHelp :=
    "You can also disable Local Whisper or enable the OpenAI fallback in Settings to continue using cloud transcription."
  "Local Whisper could not start because Python was not found on this system. " ++
    platformHelp ++ " " ++ fallbackHelp

/-- The rejection message of the `error` handler. -/
def procErrorMessage (win : Bool) (enoent : Bool) (message : String) : String :=
  if enoent then pythonMissingMessage win
  else "Whisper process error: " ++ message

/-- The settlement each handler passes to resolve/reject when it acts. -/
def rwEventSettlement (stdout stderr : String) (win : Bool) : RWEvent → Settlement
  | .timeoutFire => .rejected timeoutMessage
  | .close code =>
    if code = some 0 then .resolved stdout
    else .rejected (closeErrorMessage stderr code)
  | .procError enoent msg => .rejected (procErrorMessage win enoent msg)

/-- One event dispatch, exactly as the three handlers are written: the
timeout callback tests `isResolved` but never sets it; the `close` and
`error` handlers return early when `isResolved` is set and set it before
settling. -/
def rwHandle (stdout stderr : String) (win : Bool) (s : RWState) :
    RWEvent → RWState
  | .timeoutFire =>
    if s.isResolved then s
    else settle { s with sigtermSent := true }
      (.rejected timeoutMessage)
  | .close code =>
    if s.isResolved then s
    else settle { s with isResolved := true }
      (rwEventSettlement stdout stderr win (.close code))
  | .procError enoent msg =>
    if s.isResolved then s
    else settle { s with isResolved := true }
      (rwEventSettlement stdout stderr win (.procError enoent msg))

/-- Initial invocation state. -/
def rwInit : RWState := ⟨false, none, 0, false⟩

/-- Run an event trace against the invocation. -/
def rwRun (stdout stderr : String) (win : Bool) (events : List RWEvent) :
    RWState :=
  events.foldl (rwHandle stdout stderr win) rwInit

/-- Helper: once `isResolved` is set, every handler is a no-op. -/
theorem rwFold_resolved (stdout stderr : String) (win : Bool)
    (events : List RWEvent) (s : RWState) (h : s.isResolved = true) :
    events.foldl (rwHandle stdout stderr win) s = s := by
  induction events with
  | nil => rfl
  | cons e rest ih =>
    have he : rwHandle stdout stderr win s e = s := by
      cases e <;> simp [rwHandle, h]
    rw [List.foldl_cons, he, ih]

/-- Helper: a settled promise never changes under further events. -/
theorem rwFold_promise_frozen (stdout stderr : String) (win : Bool)
    (events : List RWEvent) (s : RWState) (v : Settlement)
    (h : s.promise = some v) :
    (events.foldl (rwHandle stdout stderr win) s).promise = some v := by
  induction events generalizing s with
  | nil => exact h
  | cons e rest ih =>
    rw [List.foldl_cons]
    apply ih
    cases e <;> simp only [rwHandle] <;> split <;> simp [settle, h]

/-- Helper: with no timeout event in the trace, a still-unresolved state
gains at most one further resolve/reject call. -/
theorem rwFold_calls_no_timeout (stdout stderr : String) (win : Bool)
    (rest : List RWEvent) (s : RWState) (hres : s.isResolved = false)
    (hto : RWEvent.timeoutFire ∉ rest) :
    (rest.foldl (rwHandle stdout stderr win) s).settleCalls ≤
      s.settleCalls + 1 := by
  induction rest with
  | nil => simp
  | cons e rest ih =>
    cases e with
    | timeoutFire => exact absurd (List.mem_cons_self _ _) hto
    | close code =>
      rw [List.foldl_cons]
      have : (rwHandle stdout stderr win s (.close code)) =
          settle { s with isResolved := true }
            (rwEventSettlement stdout stderr win (.close code)) := by
        simp [rwHandle, hres]
      rw [this, rwFold_resolved]
      · simp [settle]
      · rfl
    | procError enoent msg =>
      rw [List.foldl_cons]
      have : (rwHandle stdout stderr win s (.procError enoent msg)) =
          settle { s with isResolved := true }
            (rwEventSettlement stdout stderr win (.procError enoent msg)) := by
        simp [rwHandle, hres]
      rw [this, rwFold_resolved]
      · simp [settle]
      · rfl

/-- C2 counterexample: in the trace where the timeout fires strictly
before the process close event, the timeout handler rejects and the
close handler nevertheless also calls resolve — two resolve/reject
calls for one invocation, because the timeout callback never sets the
`isResolved` guard.  The promise still ends with the timeout rejection
only because the runtime ignores the second call. -/
theorem c2_counterexample_timeout_then_close :
    (rwRun "out" "" false [.timeoutFire, .close (some 0)]).settleCalls = 2 ∧
    (rwRun "out" "" false [.timeoutFire, .close (some 0)]).isResolved = true ∧
    (rwRun "out" "" false [.timeoutFire, .close (some 0)]).promise =
      some (.rejected timeoutMessage) := by
  refine ⟨rfl, rfl, rfl⟩

/-- C2 amended: for every admissible trace (the single timer fires at
most once), the invocation's promise is settled exactly once — its fate
is fixed by the first event to arrive and never changes afterwards, so
the timeout expiry and the process close cannot both determine the
outcome — but this exclusivity is enforced by the promise runtime's
first-call-wins rule, not by the `isResolved` guard alone: the handlers
make at most two resolve/reject calls, and a second call occurs exactly
in traces whose first event is the timeout (the timeout callback does
not set the guard, so a later close or error handler still calls
resolve/reject; that second call is ignored).  Among close and error
events alone the guard does ensure a single call. -/
theorem c2_runWhisperProcess_single_settlement
    (stdout stderr : String) (win : Bool) (events : List RWEvent)
    (htimer : events.count RWEvent.timeoutFire ≤ 1) :
    (rwRun stdout stderr win events).promise =
      events.head?.map (rwEventSettlement stdout stderr win) ∧
    (rwRun stdout stderr win events).settleCalls ≤ 2 ∧
    ((rwRun stdout stderr win events).settleCalls = 2 →
      events.head? = some RWEvent.timeoutFire) := by
  cases events with
  | nil => refine ⟨rfl, by simp [rwRun, rwInit], by simp [rwRun, rwInit]⟩
  | cons e rest =>
    have hfirst : (rwHandle stdout stderr win rwInit e).promise =
        some (rwEventSettlement stdout stderr win e) := by
      cases e <;> simp [rwHandle, rwInit, settle, rwEventSettlement]
    constructor
    · show (rest.foldl (rwHandle stdout stderr win)
          (rwHandle stdout stderr win rwInit e)).promise = _
      rw [rwFold_promise_frozen stdout stderr win rest _ _ hfirst]
      simp
    · cases e with
      | timeoutFire =>
        have hcount : RWEvent.timeoutFire ∉ rest := by
          rw [← List.count_eq_zero]
          have := List.count_cons_self RWEvent.timeoutFire rest
          omega
        have hstate : rwHandle stdout stderr win rwInit .timeoutFire =
            ⟨false, some (.rejected timeoutMessage), 1, true⟩ := by
          simp [rwHandle, rwInit, settle]
        have hle := rwFold_calls_no_timeout stdout stderr win rest
          ⟨false, some (.rejected timeoutMessage), 1, true⟩ rfl hcount
        constructor
        · show (rest.foldl (rwHandle stdout stderr win)
            (rwHandle stdout stderr win rwInit .timeoutFire)).settleCalls ≤ 2
          rw [hstate]
          exact hle
        · intro _
          rfl
      | close code =>
        have hstate : (rwHandle stdout stderr win rwInit (.close code)).isResolved
            = true := by
          simp [rwHandle, rwInit, settle]
        have hcalls : (rwHandle stdout stderr win rwInit (.close code)).settleCalls
            = 1 := by
          simp [rwHandle, rwInit, settle]
        have hrun : (rwRun stdout stderr win
            (RWEvent.close code :: rest)).settleCalls = 1 := by
          show (rest.foldl (rwHandle stdout stderr win)
            (rwHandle stdout stderr win rwInit (.close code))).settleCalls = 1
          rw [rwFold_resolved stdout stderr win rest _ hstate, hcalls]
        exact ⟨by omega,
          fun h => absurd (hrun.symm.trans h) (by decide)⟩
      | procError enoent msg =>
        have hstate : (rwHandle stdout stderr win rwInit
            (.procError enoent msg)).isResolved = true := by
          simp [rwHandle, rwInit, settle]
        have hcalls : (rwHandle stdout stderr win rwInit
            (.procError enoent msg)).settleCalls = 1 := by
          simp [rwHandle, rwInit, settle]
        have hrun : (rwRun stdout stderr win
            (RWEvent.procError enoent msg :: rest)).settleCalls = 1 := by
          show (rest.foldl (rwHandle stdout stderr win)
            (rwHandle stdout stderr win rwInit (.procError enoent msg))).settleCalls = 1
          rw [rwFold_resolved stdout stderr win rest _ hstate, hcalls]
        exact ⟨by omega,
          fun h => absurd (hrun.symm.trans h) (by decide)⟩

/-! ## JSON values and `JSON.parse` (used by `parseWhisperResult`)

A JSON value as produced by the runtime's `JSON.parse`.  Numbers keep
their source numeral (the code only ever consults a number through
truthiness).  The parser below implements the JSON grammar: it rejects
trailing garbage, raw control characters in strings, leading zeros and
malformed numerals.  Surrogate `\uXXXX` escapes are not modelled. -/

inductive Json where
  | null
  | bool (b : Bool)
  | num (raw : String)
  | str (s : String)
  | arr (elems : List Json)
  | obj (fields : List (String × Json))
deriving Repr

/-- JSON insignificant whitespace (space, tab, line feed, carriage
return). -/
def jsonWs (c : Char) : Bool :=
  c == ' ' || c == '\t' || c == '\n' || c == '\r'

/-- Skip insignificant whitespace. -/
def skipJsonWs (cs : List Char) : List Char :=
  cs.dropWhile jsonWs

/-- Value of a hexadecimal digit. -/
def hexVal (c : Char) : Option Nat :=
  if '0' ≤ c ∧ c ≤ '9' then some (c.toNat - 48)
  else if 'a' ≤ c ∧ c ≤ 'f' then some (c.toNat - 87)
  else if 'A' ≤ c ∧ c ≤ 'F' then some (c.toNat - 55)
  else none

/-- Parse a JSON string body (opening quote already consumed),
accumulating characters until the closing quote. -/
def parseStringBody : Nat → List Char → List Char → Option (String × List Char)
  | 0, _, _ => none
  | _ + 1, _, [] => none
  | fuel + 1, acc, c :: cs =>
    if c == '"' then some (String.mk acc.reverse, cs)
    else if c == '\\' then
      match cs with
      | [] => none
      | e :: cs2 =>
        if e == '"' then parseStringBody fuel ('"' :: acc) cs2
        else if e == '\\' then parseStringBody fuel ('\\' :: acc) cs2
        else if e == '/' then parseStringBody fuel ('/' :: acc) cs2
        else if e == 'b' then parseStringBody fuel ('\x08' :: acc) cs2
        else if e == 'f' then parseStringBody fuel ('\x0c' :: acc) cs2
        else if e == 'n' then parseStringBody fuel ('\n' :: acc) cs2
        else if e == 'r' then parseStringBody fuel ('\r' :: acc) cs2
        else if e == 't' then parseStringBody fuel ('\t' :: acc) cs2
        else if e == 'u' then
          match cs2 with
          | h1 :: h2 :: h3 :: h4 :: cs3 =>
            match hexVal h1, hexVal h2, hexVal h3, hexVal h4 with
            | some a, some b, some c3, some d =>
              let n := ((a * 16 + b) * 16 + c3) * 16 + d
              if n < 0xd800 then parseStringBody fuel (Char.ofNat n :: acc) cs3
              else if 0xdfff < n then
                parseStringBody fuel (Char.ofNat n :: acc) cs3
              else none
            | _, _, _, _ => none
          | _ => none
        else none
    else if c.toNat < 32 then none
    else parseStringBody fuel (c :: acc) cs

/-- Parse a JSON numeral, returning the consumed source text. -/
def parseNumber (cs : List Char) : Option (String × List Char) :=
  let signSplit : Bool × List Char :=
    match cs with
    | '-' :: t => (true, t)
    | _ => (false, cs)
  let neg := signSplit.1
  let cs1 := signSplit.2
  let intPart := cs1.takeWhile Char.isDigit
  if intPart.isEmpty then none
  else if intPart.head? == some '0' && intPart.length > 1 then none
  else
    let cs2 := cs1.drop intPart.length
    let fracRes : Option (List Char × List Char) :=
      match cs2 with
      | '.' :: t =>
        let ds := t.takeWhile Char.isDigit
        if ds.isEmpty then none else some ('.' :: ds, t.drop ds.length)
      | _ => some ([], cs2)
    match fracRes with
    | none => none
    | some (fracPart, cs3) =>
      let expRes : Option (List Char × List Char) :=
        match cs3 with
        | e :: t =>
          if e == 'e' || e == 'E' then
            let esSplit : List Char × List Char :=
              match t with
              | '+' :: u => (['+'], u)
              | '-' :: u => (['-'], u)
              | _ => ([], t)
            let ds := esSplit.2.takeWhile Char.isDigit
            if ds.isEmpty then none
            else some (e :: (esSplit.1 ++ ds), esSplit.2.drop ds.length)
          else some ([], cs3)
        | [] => some ([], cs3)
      match expRes with
      | none => none
      | some (expPart, cs4) =>
        some (String.mk ((if neg then ['-'] else []) ++ intPart ++
          fracPart ++ expPart), cs4)

mutual

/-- Parse one JSON value (fuel decreases on every nested parse; the
top-level caller supplies fuel larger than the input length). -/
def parseValue : Nat → List Char → Option (Json × List Char)
  | 0, _ => none
  | fuel + 1, cs0 =>
    match skipJsonWs cs0 with
    | [] => none
    | c :: rest =>
      if c == 'n' then
        if beginsWith "ull".toList rest then some (.null, rest.drop 3) else none
      else if c == 't' then
        if beginsWith "rue".toList rest then some (.bool true, rest.drop 3)
        else none
      else if c == 'f' then
        if beginsWith "alse".toList rest then some (.bool false, rest.drop 4)
        else none
      else if c == '"' then
        match parseStringBody (rest.length + 1) [] rest with
        | some (s, cs2) => some (.str s, cs2)
        | none => none
      else if c == '\x7b' then
        match skipJsonWs rest with
        | '\x7d' :: cs2 => some (.obj [], cs2)
        | _ => parseObjectRest fuel rest []
      else if c == '[' then
        match skipJsonWs rest with
        | ']' :: cs2 => some (.arr [], cs2)
        | _ => parseArrayRest fuel rest []
      else if c == '-' || c.isDigit then
        match parseNumber (c :: rest) with
        | some (raw, cs2) => some (.num raw, cs2)
        | none => none
      else none

/-- Parse the members of an object after `{` or after a `,`. -/
def parseObjectRest : Nat → List Char →
    List (String × Json) → Option (Json × List Char)
  | 0, _, _ => none
  | fuel + 1, cs, acc =>
    match skipJsonWs cs with
    | '"' :: rest =>
      match parseStringBody (rest.length + 1) [] rest with
      | none => none
      | some (key, cs2) =>
        match skipJsonWs cs2 with
        | ':' :: cs3 =>
          match parseValue fuel cs3 with
          | none => none
          | some (v, cs4) =>
            match skipJsonWs cs4 with
            | ',' :: cs5 => parseObjectRest fuel cs5 ((key, v) :: acc)
            | '\x7d' :: cs5 => some (.obj ((key, v) :: acc).reverse, cs5)
            | _ => none
        | _ => none
    | _ => none

/-- Parse the elements of an array after `[` or after a `,`. -/
def parseArrayRest : Nat → List Char → List Json → Option (Json × List Char)
  | 0, _, _ => none
  | fuel + 1, cs, acc =>
    match parseValue fuel cs with
    | none => none
    | some (v, cs2) =>
      match skipJsonWs cs2 with
      | ',' :: cs3 => parseArrayRest fuel cs3 (v :: acc)
      | ']' :: cs3 => some (.arr (v :: acc).reverse, cs3)
      | _ => none

end

/-- `JSON.parse`: a single value, optionally surrounded by whitespace;
anything left over is a syntax error. -/
def jsonParse (s : String) : Option Json :=
  match parseValue (s.length + 1) s.toList with
  | some (v, rest) => if skipJsonWs rest = [] then some v else none
  | none => none

/-- JavaScript property read `j[key]` on a parsed value: objects give
the last binding of the key (later duplicates overwrite earlier ones),
everything else gives undefined (`none`). -/
def getField (j : Json) (key : String) : Option Json :=
  match j with
  | .obj fields => (fields.reverse.find? (fun kv => kv.1 == key)).map (·.2)
  | _ => none

/-- Is the numeral zero (all mantissa digits `0`)? -/
def numeralIsZero (raw : String) : Bool :=
  let cs := raw.toList
  let cs1 := if cs.head? == some '-' then cs.drop 1 else cs
  let mant := cs1.takeWhile (fun c => !(c == 'e') && !(c == 'E'))
  mant.all (fun c => c == '0' || c == '.')

/-- JavaScript truthiness of a parsed JSON value
(undefined is represented as an absent `Option`). -/
def jsTruthy : Json → Bool
  | .null => false
  | .bool b => b
  | .num raw => !numeralIsZero raw
  | .str s => s != ""
  | .arr _ => true
  | .obj _ => true

/-! ## Result parsing (`parseWhisperResult`, C5 and C9) -/

/-- Outcome of `parseWhisperResult`: a success object `{success: true,
text}` or a soft failure object `{success: false, message}`. -/
inductive WhisperOutcome where
  | success (text : String)
  | soft (message : Json)
deriving Repr

/-- Hard failure message when no brace-delimited line exists (the inner
throw is re-wrapped by the surrounding catch). -/
def noJsonMessage : String :=
  "Failed to parse Whisper output: No JSON output found in Whisper response"

/-- Hard failure when `JSON.parse` throws on the selected line (the
runtime's SyntaxError text is abstracted). -/
def jsonSyntaxMessage : String :=
  "Failed to parse Whisper output: SyntaxError"

/-- Hard failure when `result.text` is truthy but not a string, so
`result.text.trim()` throws a TypeError inside the try block. -/
def trimTypeMessage : String :=
  "Failed to parse Whisper output: TypeError"

/-- The soft message for an absent/empty/whitespace-only text field. -/
def emptyTextMessage : String :=
  "Transcription produced no text (possible audio issue or model failure)"

/-- The default soft message when `result.error` is falsy. -/
def transcriptionFailedMessage : String := "Transcription failed"

/-- JavaScript `stdout.split("\n")` implemented structurally (the
separator is the single newline character). -/
def splitLinesGo : List Char → List Char → List String
  | acc, [] => [String.mk acc.reverse]
  | acc, c :: cs =>
    if c == '\n' then String.mk acc.reverse :: splitLinesGo [] cs
    else splitLinesGo (c :: acc) cs

/-- JavaScript `stdout.split("\n")`. -/
def jsSplitNewline (s : String) : List String :=
  splitLinesGo [] s.toList

/-- The source's JSON-line heuristic: the trimmed line starts with `{`
and ends with `}`. -/
def isJsonLine (l : String) : Bool :=
  ((jsTrim l).toList.head? == some '\x7b') &&
  ((jsTrim l).toList.getLast? == some '\x7d')

/-- The non-blank lines of the worker stdout
(`stdout.split("\n").filter(line => line.trim())`). -/
def whisperLines (lines0 : List String) : List String :=
  lines0.filter (fun l => !(jsTrim l == ""))

/-- The soft message on the `success === false` branch:
`result.error || "Transcription failed"`. -/
def softMessage (result : Json) : Json :=
  match getField result "error" with
  | some v => if jsTruthy v then v else .str transcriptionFailedMessage
  | none => .str transcriptionFailedMessage

/-- `parseWhisperResult` after the newline split. -/
def parseWhisperLines (lines0 : List String) : Except String WhisperOutcome :=
  match (whisperLines lines0).find? isJsonLine with
  | none => .error noJsonMessage
  | some l =>
    match jsonParse (jsTrim l) with
    | none => .error jsonSyntaxMessage
    | some result =>
      match getField result "success" with
      | some (.bool false) => .ok (.soft (softMessage result))
      | _ =>
        match getField result "text" with
        | none => .ok (.soft (.str emptyTextMessage))
        | some (.str s) =>
          if jsTrim s == "" then .ok (.soft (.str emptyTextMessage))
          else .ok (.success (jsTrim s))
        | some v =>
          if jsTruthy v then .error trimTypeMessage
          else .ok (.soft (.str emptyTextMessage))

/-- `parseWhisperResult`: scan stdout line by line for the first
brace-delimited line, `JSON.parse` it, and classify. -/
def parseWhisperResult (stdout : String) : Except String WhisperOutcome :=
  parseWhisperLines (jsSplitNewline stdout)

/-- Strict check `result.success === false`. -/
def successIsFalse (j : Json) : Bool :=
  match getField j "success" with
  | some (.bool false) => true
  | _ => false

/-- Truthiness test `!result.text || result.text.trim().length === 0`
restricted to the cases that stay inside the soft path: the text field
is absent, falsy, or a blank string. -/
def textFalsyOrBlank (j : Json) : Bool :=
  match getField j "text" with
  | none => true
  | some (.str s) => jsTrim s == ""
  | some v => !jsTruthy v

/-- The text field is truthy but not a string, so `.trim()` throws. -/
def textTrimThrows (j : Json) : Bool :=
  match getField j "text" with
  | some (.str _) => false
  | some v => jsTruthy v
  | none => false

/-- The string content of the text field (used only when it is a
string). -/
def textString (j : Json) : String :=
  match getField j "text" with
  | some (.str s) => s
  | _ => ""

/-- Helper: closed form of `parseWhisperLines` once a brace line is
selected and parses: the outcome is decided by `successIsFalse`,
`textTrimThrows` and `textFalsyOrBlank`. -/
theorem parseWhisperLines_selected (lines0 : List String) (l : String) (j : Json)
    (hfind : (whisperLines lines0).find? isJsonLine = some l)
    (hjson : jsonParse (jsTrim l) = some j) :
    parseWhisperLines lines0 =
      if successIsFalse j then .ok (.soft (softMessage j))
      else if textTrimThrows j then .error trimTypeMessage
      else if textFalsyOrBlank j then .ok (.soft (.str emptyTextMessage))
      else .ok (.success (jsTrim (textString j))) := by
  unfold parseWhisperLines successIsFalse textTrimThrows textFalsyOrBlank textString
  simp only [hfind, hjson]
  rcases getField j "success" with _ | v
  · rcases getField j "text" with _ | w
    · simp
    · rcases w with _ | b2 | raw | s | es | fs
      · simp [jsTruthy]
      · rcases b2 with _ | _ <;> simp [jsTruthy]
      · by_cases ht : numeralIsZero raw = true <;> simp [jsTruthy, ht]
      · by_cases hs : (jsTrim s == "") = true <;> simp [hs]
      · simp [jsTruthy]
      · simp [jsTruthy]
  · rcases v with _ | b | raw0 | s0 | es0 | fs0
    · rcases getField j "text" with _ | w
      · simp
      · rcases w with _ | b2 | raw | s | es | fs
        · simp [jsTruthy]
        · rcases b2 with _ | _ <;> simp [jsTruthy]
        · by_cases ht : numeralIsZero raw = true <;> simp [jsTruthy, ht]
        · by_cases hs : (jsTrim s == "") = true <;> simp [hs]
        · simp [jsTruthy]
        · simp [jsTruthy]
    · rcases b with _ | _
      · simp
      · rcases getField j "text" with _ | w
        · simp
        · rcases w with _ | b2 | raw | s | es | fs
          · simp [jsTruthy]
          · rcases b2 with _ | _ <;> simp [jsTruthy]
          · by_cases ht : numeralIsZero raw = true <;> simp [jsTruthy, ht]
          · by_cases hs : (jsTrim s == "") = true <;> simp [hs]
          · simp [jsTruthy]
          · simp [jsTruthy]
    · rcases getField j "text" with _ | w
      · simp
      · rcases w with _ | b2 | raw | s | es | fs
        · simp [jsTruthy]
        · rcases b2 with _ | _ <;> simp [jsTruthy]
        · by_cases ht : numeralIsZero raw = true <;> simp [jsTruthy, ht]
        · by_cases hs : (jsTrim s == "") = true <;> simp [hs]
        · simp [jsTruthy]
        · simp [jsTruthy]
    · rcases getField j "text" with _ | w
      · simp
      · rcases w with _ | b2 | raw | s | es | fs
        · simp [jsTruthy]
        · rcases b2 with _ | _ <;> simp [jsTruthy]
        · by_cases ht : numeralIsZero raw = true <;> simp [jsTruthy, ht]
        · by_cases hs : (jsTrim s == "") = true <;> simp [hs]
        · simp [jsTruthy]
        · simp [jsTruthy]
    · rcases getField j "text" with _ | w
      · simp
      · rcases w with _ | b2 | raw | s | es | fs
        · simp [jsTruthy]
        · rcases b2 with _ | _ <;> simp [jsTruthy]
        · by_cases ht : numeralIsZero raw = true <;> simp [jsTruthy, ht]
        · by_cases hs : (jsTrim s == "") = true <;> simp [hs]
        · simp [jsTruthy]
        · simp [jsTruthy]
    · rcases getField j "text" with _ | w
      · simp
      · rcases w with _ | b2 | raw | s | es | fs
        · simp [jsTruthy]
        · rcases b2 with _ | _ <;> simp [jsTruthy]
        · by_cases ht : numeralIsZero raw = true <;> simp [jsTruthy, ht]
        · by_cases hs : (jsTrim s == "") = true <;> simp [hs]
        · simp [jsTruthy]
        · simp [jsTruthy]

/-- Helper: a line passing the brace heuristic is not blank. -/
theorem isJsonLine_trim_ne (l : String) (hl : isJsonLine l = true) :
    (jsTrim l == "") = false := by
  by_cases h : jsTrim l = ""
  · exfalso
    unfold isJsonLine at hl
    rw [h] at hl
    exact absurd hl (by decide)
  · simp [h]

/-- Helper: a falsy-or-blank text field cannot also be a truthy
non-string. -/
theorem textFalsyOrBlank_not_throws (j : Json)
    (h : textFalsyOrBlank j = true) : textTrimThrows j = false := by
  unfold textFalsyOrBlank at h
  unfold textTrimThrows
  rcases htext : getField j "text" with _ | w
  · rfl
  · rw [htext] at h
    rcases w with _ | b | raw | s | es | fs <;> simp_all

/-- Helper: lines that fail the brace heuristic, before or after the
selected line, do not change the parsed result. -/
theorem parseWhisperLines_noise (noise : List String) (l : String)
    (rest : List String) (hn : ∀ n ∈ noise, isJsonLine n = false)
    (hl : isJsonLine l = true) :
    parseWhisperLines (noise ++ l :: rest) = parseWhisperLines [l] := by
  have hp : (!(jsTrim l == "")) = true := by
    rw [isJsonLine_trim_ne l hl]
    rfl
  have hfind1 : (whisperLines (noise ++ l :: rest)).find? isJsonLine = some l := by
    unfold whisperLines
    rw [List.filter_append, List.find?_append]
    have h1 : (List.filter (fun x => !(jsTrim x == "")) noise).find? isJsonLine
        = none := by
      rw [List.find?_eq_none]
      intro x hx
      simp [hn x (List.mem_of_mem_filter hx)]
    rw [h1, List.filter_cons, hp]
    simp [List.find?_cons_of_pos, hl]
  have hfind2 : (whisperLines [l]).find? isJsonLine = some l := by
    unfold whisperLines
    rw [List.filter_cons, hp]
    simp [List.find?_cons_of_pos, hl]
  unfold parseWhisperLines
  rw [hfind1, hfind2]

/-- C5 counterexample: stdout whose first brace-delimited line is not
valid JSON, followed by a line that is a complete JSON object.  The
code selects the first brace line, `JSON.parse` throws, and the whole
call is a hard parse failure — although a line that is a complete JSON
object does exist (and alone would parse to a success outcome).  This
refutes "throws a hard parse failure exactly when no such line
exists". -/
theorem c5_counterexample_first_brace_line_wins :
    parseWhisperResult
        "\x7boops\x7d\n\x7b\"success\":true,\"text\":\"hi\"\x7d" =
      .error jsonSyntaxMessage ∧
    (jsonParse "\x7b\"success\":true,\"text\":\"hi\"\x7d").isSome = true ∧
    parseWhisperResult "\x7b\"success\":true,\"text\":\"hi\"\x7d" =
      .ok (.success "hi") := by
  refine ⟨rfl, rfl, rfl⟩

/-- C5 amended: `parseWhisperResult` selects the first line whose
trimmed form starts with `{` and ends with `}`; it throws a hard parse
failure exactly when no such line exists, or the selected line fails
`JSON.parse`, or the parsed object has a truthy non-string text field
without `success === false`.  A parsed object with `success === false`,
or with an absent, falsy or whitespace-only text field, yields a soft
`{success: false, message}` outcome without throwing; and lines failing
the brace heuristic before the selected line, as well as any lines
after it, do not change the result. -/
theorem c5_parseWhisperResult_line_scan (stdout : String) :
    ((∃ e, parseWhisperResult stdout = .error e) ↔
      ((whisperLines (jsSplitNewline stdout)).find? isJsonLine = none ∨
       ∃ l, (whisperLines (jsSplitNewline stdout)).find? isJsonLine = some l ∧
         (jsonParse (jsTrim l) = none ∨
          ∃ j, jsonParse (jsTrim l) = some j ∧ successIsFalse j = false ∧
            textTrimThrows j = true))) ∧
    (∀ l j, (whisperLines (jsSplitNewline stdout)).find? isJsonLine = some l →
      jsonParse (jsTrim l) = some j →
      (successIsFalse j = true →
        parseWhisperResult stdout = .ok (.soft (softMessage j))) ∧
      (successIsFalse j = false → textFalsyOrBlank j = true →
        parseWhisperResult stdout = .ok (.soft (.str emptyTextMessage)))) ∧
    (∀ noise l rest, (∀ n ∈ noise, isJsonLine n = false) → isJsonLine l = true →
      parseWhisperLines (noise ++ l :: rest) = parseWhisperLines [l]) := by
  refine ⟨?_, ?_, fun noise l rest hn hl => parseWhisperLines_noise noise l rest hn hl⟩
  · constructor
    · rintro ⟨e, he⟩
      unfold parseWhisperResult at he
      rcases hfind : (whisperLines (jsSplitNewline stdout)).find? isJsonLine
        with _ | l
      · exact Or.inl rfl
      · refine Or.inr ⟨l, rfl, ?_⟩
        rcases hjson : jsonParse (jsTrim l) with _ | j
        · exact Or.inl rfl
        · refine Or.inr ⟨j, rfl, ?_⟩
          rw [parseWhisperLines_selected (jsSplitNewline stdout) l j hfind hjson]
            at he
          split_ifs at he with h1 h2 h3
          cases he
          exact ⟨Bool.eq_false_iff.mpr h1, h2⟩
    · rintro (hnone | ⟨l, hfind, hbad⟩)
      · refine ⟨noJsonMessage, ?_⟩
        unfold parseWhisperResult parseWhisperLines
        simp only [hnone]
      · rcases hbad with hjson | ⟨j, hjson, hsf, htt⟩
        · refine ⟨jsonSyntaxMessage, ?_⟩
          unfold parseWhisperResult parseWhisperLines
          simp only [hfind, hjson]
        · refine ⟨trimTypeMessage, ?_⟩
          unfold parseWhisperResult
          rw [parseWhisperLines_selected (jsSplitNewline stdout) l j hfind hjson]
          simp [hsf, htt]
  · intro l j hfind hjson
    constructor
    · intro hsf
      unfold parseWhisperResult
      rw [parseWhisperLines_selected (jsSplitNewline stdout) l j hfind hjson]
      simp [hsf]
    · intro hsf hfb
      unfold parseWhisperResult
      rw [parseWhisperLines_selected (jsSplitNewline stdout) l j hfind hjson]
      simp [hsf, hfb, textFalsyOrBlank_not_throws j hfb]

/-- C9: whenever `parseWhisperResult` returns a success outcome, the
returned text is the worker result's text field with surrounding
whitespace trimmed (`result.text.trim()`), and is non-empty. -/
theorem c9_parseWhisperResult_success_text_trimmed (stdout t : String)
    (h : parseWhisperResult stdout = .ok (.success t)) :
    ∃ l j s, (whisperLines (jsSplitNewline stdout)).find? isJsonLine = some l ∧
      jsonParse (jsTrim l) = some j ∧
      getField j "text" = some (.str s) ∧
      t = jsTrim s ∧ t ≠ "" := by
  unfold parseWhisperResult at h
  rcases hfind : (whisperLines (jsSplitNewline stdout)).find? isJsonLine
    with _ | l
  · unfold parseWhisperLines at h
    simp only [hfind] at h
    cases h
  · rcases hjson : jsonParse (jsTrim l) with _ | j
    · unfold parseWhisperLines at h
      simp only [hfind, hjson] at h
      cases h
    · rw [parseWhisperLines_selected (jsSplitNewline stdout) l j hfind hjson] at h
      split_ifs at h with h1 h2 h3
      · simp at h
      · simp at h
      · rcases htext : getField j "text" with _ | w
        · exfalso
          apply h3
          unfold textFalsyOrBlank
          rw [htext]
        · rcases w with _ | b | raw | s | es | fs
          · exfalso
            apply h3
            unfold textFalsyOrBlank
            rw [htext]
            simp [jsTruthy]
          · rcases b with _ | _
            · exfalso
              apply h3
              unfold textFalsyOrBlank
              rw [htext]
              simp [jsTruthy]
            · exfalso
              apply h2
              unfold textTrimThrows
              rw [htext]
              simp [jsTruthy]
          · by_cases hz : numeralIsZero raw = true
            · exfalso
              apply h3
              unfold textFalsyOrBlank
              rw [htext]
              simp [jsTruthy, hz]
            · exfalso
              apply h2
              unfold textTrimThrows
              rw [htext]
              simp [jsTruthy, hz]
          · have hts : textString j = s := by
              unfold textString
              rw [htext]
            rw [hts] at h
            have hblank : (jsTrim s == "") = false := by
              by_contra hc
              apply h3
              unfold textFalsyOrBlank
              rw [htext]
              simpa using hc
            refine ⟨l, j, s, rfl, hjson, htext, ?_, ?_⟩
            · cases h
              rfl
            · cases h
              simpa using hblank
          · exfalso
            apply h2
            unfold textTrimThrows
            rw [htext]
            simp [jsTruthy]
          · exfalso
            apply h2
            unfold textTrimThrows
            rw [htext]
            simp [jsTruthy]

/-! ## Temp audio artifact and the transcription pipeline (C3, C6)

`createTempAudioFile` and `transcribeLocalWhisper` are modelled against
an ideal file system (the write succeeds and `stat` reports the number
of bytes written); the whisper worker invocation is abstracted by its
outcome.  The pipeline state records whether the artifact was written
(and its size), whether `cleanupTempFile` ran, whether the unlink
succeeded, and whether the worker process was spawned. -/

/-- The runtime representations of the audio argument distinguished by
`createTempAudioFile`'s instanceof/typeof chain. -/
inductive AudioBlob where
  | arrayBuffer (bytes : List Nat)
  | uint8Array (bytes : List Nat)
  | str (s : String)
  | objWithBuffer (bytes : List Nat)
  | nullVal
  | undefinedVal
  | numVal (n : Int)
  | boolVal (b : Bool)
  | objWithoutBuffer

/-- JavaScript `typeof audioBlob` (note `typeof null === "object"`). -/
def jsTypeof : AudioBlob → String
  | .arrayBuffer _ => "object"
  | .uint8Array _ => "object"
  | .str _ => "string"
  | .objWithBuffer _ => "object"
  | .nullVal => "object"
  | .undefinedVal => "undefined"
  | .numVal _ => "number"
  | .boolVal _ => "boolean"
  | .objWithoutBuffer => "object"

/-- Base64 alphabet value of a character. -/
def base64Val (c : Char) : Option Nat :=
  if 'A' ≤ c ∧ c ≤ 'Z' then some (c.toNat - 65)
  else if 'a' ≤ c ∧ c ≤ 'z' then some (c.toNat - 71)
  else if '0' ≤ c ∧ c ≤ '9' then some (c.toNat + 4)
  else if c = '+' then some 62
  else if c = '/' then some 63
  else none

/-- Decode base64 sextet groups to bytes (a trailing group of two or
three sextets contributes one or two bytes, as `Buffer.from(s,
"base64")` does after ignoring invalid characters). -/
def base64DecodeGroups : List Nat → List Nat
  | a :: b :: c :: d :: rest =>
    (a * 4 + b / 16) :: ((b % 16) * 16 + c / 4) :: ((c % 4) * 64 + d) ::
      base64DecodeGroups rest
  | [a, b] => [a * 4 + b / 16]
  | [a, b, c] => [a * 4 + b / 16, (b % 16) * 16 + c / 4]
  | _ => []

/-- `Buffer.from(s, "base64")`: forgiving decode. -/
def jsBase64Decode (s : String) : List Nat :=
  base64DecodeGroups (s.toList.filterMap base64Val)

/-- The byte buffer the instanceof/typeof chain materializes, `none`
when the chain falls through to the unsupported-input throw. -/
def toBuffer : AudioBlob → Option (List Nat)
  | .arrayBuffer bs => some bs
  | .uint8Array bs => some bs
  | .str s => some (jsBase64Decode s)
  | .objWithBuffer bs => some bs
  | _ => none

/-- Is the audio value one of the accepted representations? -/
def isSupportedAudio (b : AudioBlob) : Bool :=
  (toBuffer b).isSome

/-- Observable pipeline state of one `transcribeLocalWhisper` call. -/
structure PipeState where
  tempFileSize : Option Nat
  cleanupCalled : Bool
  fileDeleted : Bool
  workerSpawned : Bool
deriving DecidableEq, Repr

/-- State before the call. -/
def pipeInit : PipeState := ⟨none, false, false, false⟩

/-- `createTempAudioFile`: convert the input to a buffer (throwing the
unsupported-input error otherwise), write it to the uniquely named
temporary file, then verify via `stat` that the file is non-empty,
throwing `Audio file is empty` for a zero-byte write.  The returned
string is the artifact path. -/
def createTempAudioFile (tempDir uuid : String) (b : AudioBlob)
    (st : PipeState) : Except String String × PipeState :=
  match toBuffer b with
  | none => (.error ("Unsupported audio data type: " ++ jsTypeof b), st)
  | some buffer =>
    let st1 := { st with tempFileSize := some buffer.length }
    if buffer.length = 0 then (.error "Audio file is empty", st1)
    else (.ok (tempDir ++ "/" ++ ("whisper_audio_" ++ uuid ++ ".wav")), st1)

/-- `cleanupTempFile`: attempts the unlink and swallows its error. -/
def cleanupTempFile (unlinkFails : Bool) (st : PipeState) : PipeState :=
  { st with cleanupCalled := true, fileDeleted := !unlinkFails }

/-- `transcribeLocalWhisper`: FFmpeg availability gate, artifact
materialization (outside the try/finally!), then the worker run and
result parse inside a try with the cleanup in the finally.
`ffmpegAvailable`/`ffmpegErr` abstract `checkFFmpegAvailability`;
`r` abstracts the settled outcome of `runWhisperProcess`. -/
def transcribeLocalWhisper (ffmpegAvailable : Bool) (ffmpegErr : String)
    (tempDir uuid : String) (b : AudioBlob) (r : Except String String)
    (unlinkFails : Bool) : Except String WhisperOutcome × PipeState :=
  if !ffmpegAvailable then
    (.error ("FFmpeg not available: " ++ ffmpegErr), pipeInit)
  else
    match createTempAudioFile tempDir uuid b pipeInit with
    | (.error e, st) => (.error e, st)
    | (.ok _path, st) =>
      let st1 := { st with workerSpawned := true }
      let outcome : Except String WhisperOutcome :=
        match r with
        | .error e => .error e
        | .ok stdout => parseWhisperResult stdout
      (outcome, cleanupTempFile unlinkFails st1)

/-- C3 (code bug): with FFmpeg available and a zero-byte audio buffer,
the temporary artifact is written (size 0) and the invocation throws
`Audio file is empty` from inside `createTempAudioFile` — which is
called before the `try`/`finally` — so `cleanupTempFile` never runs and
the zero-byte artifact is leaked, contradicting "the artifact is
removed on every exit path ... including the path where the written
file is found to be empty".  On paths that reach the try block, cleanup
always runs and an unlink failure is swallowed. -/
theorem c3_empty_file_path_skips_cleanup :
    (transcribeLocalWhisper true "" "/tmp" "u1" (.uint8Array []) (.ok "")
        false).1 = .error "Audio file is empty" ∧
    (transcribeLocalWhisper true "" "/tmp" "u1" (.uint8Array []) (.ok "")
        false).2 =
      { tempFileSize := some 0, cleanupCalled := false, fileDeleted := false,
        workerSpawned := false } ∧
    (transcribeLocalWhisper true "" "/tmp" "u1" (.uint8Array [1])
        (.ok "\x7b\"success\":true,\"text\":\"hi\"\x7d") true).1 =
      .ok (.success "hi") ∧
    (transcribeLocalWhisper true "" "/tmp" "u1" (.uint8Array [1])
        (.ok "\x7b\"success\":true,\"text\":\"hi\"\x7d") true).2 =
      { tempFileSize := some 1, cleanupCalled := true, fileDeleted := false,
        workerSpawned := true } ∧
    (transcribeLocalWhisper true "" "/tmp" "u1" (.uint8Array [1])
        (.error "boom") false).2 =
      { tempFileSize := some 1, cleanupCalled := true, fileDeleted := true,
        workerSpawned := true } := by
  refine ⟨rfl, rfl, rfl, rfl, rfl⟩

/-- C6: `createTempAudioFile` accepts exactly a raw ArrayBuffer, a
Uint8Array, a (base64-decoded) string, and an object exposing a
`.buffer`, rejecting every other value with the unsupported-input
error; for accepted input the artifact is written and then verified
non-empty, and a zero-byte buffer makes the whole transcription call
fail fast with the `Audio file is empty` classification before the
whisper worker process is spawned. -/
theorem c6_createTempAudioFile_contract (tempDir uuid : String)
    (b : AudioBlob) (st : PipeState) :
    (isSupportedAudio b = true ↔
      ((∃ bs, b = .arrayBuffer bs) ∨ (∃ bs, b = .uint8Array bs) ∨
       (∃ s, b = .str s) ∨ (∃ bs, b = .objWithBuffer bs))) ∧
    (isSupportedAudio b = false →
      (createTempAudioFile tempDir uuid b st).1 =
        .error ("Unsupported audio data type: " ++ jsTypeof b) ∧
      (createTempAudioFile tempDir uuid b st).2 = st) ∧
    (∀ bytes, toBuffer b = some bytes →
      ((createTempAudioFile tempDir uuid b st).2.tempFileSize =
        some bytes.length) ∧
      (bytes.length = 0 →
        (createTempAudioFile tempDir uuid b st).1 =
          .error "Audio file is empty") ∧
      (bytes.length ≠ 0 →
        (createTempAudioFile tempDir uuid b st).1 =
          .ok (tempDir ++ "/" ++ ("whisper_audio_" ++ uuid ++ ".wav")))) ∧
    (toBuffer b = some [] → ∀ (r : Except String String) (unlinkFails : Bool),
      (transcribeLocalWhisper true "" tempDir uuid b r unlinkFails).1 =
        .error "Audio file is empty" ∧
      (transcribeLocalWhisper true "" tempDir uuid b r
          unlinkFails).2.workerSpawned = false) := by
  refine ⟨?_, ?_, ?_, ?_⟩
  · constructor
    · intro h
      cases b <;> simp_all [isSupportedAudio, toBuffer]
    · intro h
      rcases h with ⟨bs, rfl⟩ | ⟨bs, rfl⟩ | ⟨s, rfl⟩ | ⟨bs, rfl⟩ <;>
        simp [isSupportedAudio, toBuffer]
  · intro h
    have hnone : toBuffer b = none := by
      unfold isSupportedAudio at h
      exact Option.not_isSome_iff_eq_none.mp (by simp [h])
    unfold createTempAudioFile
    rw [hnone]
    exact ⟨rfl, rfl⟩
  · intro bytes hb
    unfold createTempAudioFile
    rw [hb]
    by_cases hz : bytes.length = 0
    · simp [hz]
    · simp [hz]
  · intro hb r unlinkFails
    unfold transcribeLocalWhisper createTempAudioFile
    rw [hb]
    simp [pipeInit]

/-! ## Model download cancellation (C7, C10)

The tracked child process handle is modelled with Node's semantics:
`kill(sig)` sends the signal when the process is still running and in
that case sets the `killed` flag — Node's `child.killed` means "a
signal was successfully sent via kill()", not "the process exited". -/

/-- A download child process handle. -/
structure DlProc where
  exited : Bool
  killedFlag : Bool
  signals : List String
deriving DecidableEq, Repr

/-- `proc.kill(sig)`: delivers the signal iff the process is still
running; a successful send sets `killed`. -/
def procKill (p : DlProc) (sig : String) : DlProc :=
  if p.exited then p
  else { p with killedFlag := true, signals := p.signals ++ [sig] }

/-- Manager state: the single tracked download handle
(`this.currentDownloadProcess`). -/
structure MgrState where
  currentDownloadProcess : Option DlProc
deriving DecidableEq, Repr

/-- Outcome object of `cancelDownload`. -/
structure CancelOutcome where
  success : Bool
  message : Option String
  error : Option String
deriving DecidableEq, Repr

/-- `cancelDownload`: with an active handle, sends SIGTERM, schedules
the grace-window check (the returned flag), and returns the success
outcome; with no handle, returns the failure outcome object (no
exception).  The catch branch is unreachable here because the modelled
`kill` does not throw. -/
def cancelDownload (st : MgrState) : CancelOutcome × MgrState × Bool :=
  match st.currentDownloadProcess with
  | some p =>
    (⟨true, some "Download cancelled", none⟩,
     ⟨some (procKill p "SIGTERM")⟩, true)
  | none =>
    (⟨false, none, some "No active download to cancel"⟩, st, false)

/-- The grace-window callback of `cancelDownload`, applied to the
manager state as it stands 3 seconds later: escalates to SIGKILL only
when a handle is still tracked and its `killed` flag is unset. -/
def cancelGraceCheck (st : MgrState) : MgrState :=
  match st.currentDownloadProcess with
  | some p =>
    if !p.killedFlag then ⟨some (procKill p "SIGKILL")⟩ else st
  | none => st

/-- The `close` listener of `downloadWhisperModel`: clears the tracked
handle (then resolves or rejects the download promise). -/
def downloadOnClose (_st : MgrState) : MgrState := ⟨none⟩

/-- The `error` listener of `downloadWhisperModel`: clears the tracked
handle (then rejects the download promise). -/
def downloadOnError (_st : MgrState) : MgrState := ⟨none⟩

/-- C7 (code bug): for an active download whose process ignores SIGTERM
and never exits, `cancelDownload` sends the graceful signal and returns
the success outcome, but the grace-window escalation finds
`child.killed` already true (set by the successful SIGTERM send), so
the forced SIGKILL is never sent even though the process has not
exited.  With no active download the failure outcome object is returned
rather than an exception. -/
theorem c7_cancelDownload_never_escalates :
    (cancelDownload ⟨some ⟨false, false, []⟩⟩).1 =
      ⟨true, some "Download cancelled", none⟩ ∧
    (cancelDownload ⟨some ⟨false, false, []⟩⟩).2.1 =
      ⟨some ⟨false, true, ["SIGTERM"]⟩⟩ ∧
    (cancelDownload ⟨some ⟨false, false, []⟩⟩).2.2 = true ∧
    cancelGraceCheck (cancelDownload ⟨some ⟨false, false, []⟩⟩).2.1 =
      ⟨some ⟨false, true, ["SIGTERM"]⟩⟩ ∧
    (cancelDownload ⟨none⟩).1 =
      ⟨false, none, some "No active download to cancel"⟩ := by
  refine ⟨rfl, rfl, rfl, rfl, rfl⟩

/-- C10: the `close` and `error` listeners of the download process clear
the tracked handle, so after any download has ended a subsequent
`cancelDownload` returns the no-active-download failure outcome, leaves
the state unchanged, schedules no escalation, and signals nothing. -/
theorem c10_download_handle_cleared (st : MgrState) :
    (downloadOnClose st).currentDownloadProcess = none ∧
    (downloadOnError st).currentDownloadProcess = none ∧
    cancelDownload (downloadOnClose st) =
      (⟨false, none, some "No active download to cancel"⟩,
       downloadOnClose st, false) ∧
    cancelDownload (downloadOnError st) =
      (⟨false, none, some "No active download to cancel"⟩,
       downloadOnError st, false) := by
  refine ⟨rfl, rfl, rfl, rfl⟩

/-! ## Decoder binary resolution (`getFFmpegPath`, C8)

The environment record abstracts the packaged/development mode probe,
`require("ffmpeg-static")`, and the file-system checks.  `path.join` is
modelled as separator interposition (its `..`-normalization is not
observable through the abstract existence checks). -/

/-- Environment of the binary locator. -/
structure FfmpegEnv where
  nodeEnvDevelopment : Bool
  resourcesPath : Option String
  win32 : Bool
  requireFfmpegStatic : Option String
  fsExists : String → Bool
  fsExecutable : String → Bool

/-- `path.join` (separator interposition). -/
def joinPath (parts : List String) : String :=
  String.intercalate "/" parts

/-- Platform decoder binary name. -/
def ffmpegBinaryName (win : Bool) : String :=
  if win then "ffmpeg.exe" else "ffmpeg"

/-- Does the string end with the suffix? -/
def strEndsWithStr (s suffixStr : String) : Bool :=
  beginsWith suffixStr.toList.reverse s.toList.reverse

/-- JavaScript `s.replace(needle, repl)` for a plain-string needle
(first occurrence only; no match returns the input). -/
def replaceFirstGo (needle repl : List Char) : List Char → List Char
  | [] => []
  | c :: cs =>
    if beginsWith needle (c :: cs) then repl ++ (c :: cs).drop needle.length
    else c :: replaceFirstGo needle repl cs

/-- JavaScript `s.replace("app.asar", ...)`-style first-match replace. -/
def strReplaceFirst (s needle repl : String) : String :=
  String.mk (replaceFirstGo needle.toList repl.toList s.toList)

/-- The characters after the first occurrence of the needle. -/
def afterFirstSub (needle : List Char) : List Char → Option (List Char)
  | [] => none
  | c :: cs =>
    if beginsWith needle (c :: cs) then some ((c :: cs).drop needle.length)
    else afterFirstSub needle cs

/-- The characters after the last occurrence of the needle (fueled). -/
def afterLastSubGo (needle : List Char) : Nat → List Char → Option (List Char)
  | 0, _ => none
  | fuel + 1, cs =>
    match afterFirstSub needle cs with
    | none => none
    | some rest =>
      match afterLastSubGo needle fuel rest with
      | some r => some r
      | none => some rest

/-- JavaScript `s.replace(/.*needle/, repl)` for a greedy leading
wildcard: replaces everything up to and including the last occurrence
of the needle; no occurrence returns the input. -/
def replacePrefixThroughLast (s needle repl : String) : String :=
  match afterLastSubGo needle.toList (s.length + 1) s.toList with
  | some rest => repl ++ String.mk rest
  | none => s

/-- The initial bundled path of the try block: in packaged mode the
directly constructed unpacked path, in development mode the
`ffmpeg-static` resolution (with the `.exe` suffix fix on Windows);
`.error` models a throw (module missing / null path). -/
def ffmpegPrimaryPath (env : FfmpegEnv) : Except String String :=
  if !env.nodeEnvDevelopment && env.resourcesPath.isSome then
    .ok (joinPath [env.resourcesPath.getD "", "app.asar.unpacked",
      "node_modules", "ffmpeg-static", ffmpegBinaryName env.win32])
  else
    match env.requireFfmpegStatic with
    | none => .error "Cannot find module ffmpeg-static"
    | some p =>
      .ok (if env.win32 && !strEndsWithStr p ".exe" then p ++ ".exe" else p)

/-- The fixed list of unpack path transforms tried when the primary
path does not exist. -/
def ffmpegAlternatives (env : FfmpegEnv) (dirName p0 : String) : List String :=
  [strReplaceFirst p0 "app.asar" "app.asar.unpacked",
   replacePrefixThroughLast p0 "app.asar"
     (joinPath [dirName, "..", "..", "app.asar.unpacked"]),
   joinPath [env.resourcesPath.getD "", "app.asar.unpacked", "node_modules",
     "ffmpeg-static", ffmpegBinaryName env.win32]]

/-- The candidate after the alternative sweep: the primary path when it
exists, else the first existing alternative, else the primary path. -/
def ffmpegResolvedCandidate (env : FfmpegEnv) (dirName p0 : String) : String :=
  if env.fsExists p0 then p0
  else
    match (ffmpegAlternatives env dirName p0).find? env.fsExists with
    | some alt => alt
    | none => p0

/-- The whole try block of `getFFmpegPath`: throws when the candidate
does not exist or exists but is not executable. -/
def bundledFfmpegResolve (env : FfmpegEnv) (dirName : String) :
    Except String String :=
  match ffmpegPrimaryPath env with
  | .error e => .error e
  | .ok p0 =>
    let p1 := ffmpegResolvedCandidate env dirName p0
    if !env.fsExists p1 then .error ("Bundled FFmpeg not found at " ++ p1)
    else if !env.fsExecutable p1 then
      .error ("FFmpeg exists but is not executable: " ++ p1)
    else .ok p1

/-- The locator body: any throw in the try block falls back to the bare
system binary name, whose existence is not verified (the `runCommand`
probe in the catch affects only logging — both its success and failure
branches assign the same name).  The result type is `String`: the
function cannot fail. -/
def getFFmpegPathCompute (env : FfmpegEnv) (dirName : String) : String :=
  match bundledFfmpegResolve env dirName with
  | .ok p => p
  | .error _ => ffmpegBinaryName env.win32

/-- `getFFmpegPath` with the `this.cachedFFmpegPath` cache (a truthy —
non-empty — cached string is returned as is; otherwise the computed
path is stored). -/
def getFFmpegPath (env : FfmpegEnv) (dirName : String)
    (cached : Option String) : String × Option String :=
  match cached with
  | some p =>
    if p == "" then
      let q := getFFmpegPathCompute env dirName
      (q, some q)
    else (p, some p)
  | none =>
    let q := getFFmpegPathCompute env dirName
    (q, some q)

/-- Helper: a successful bundled resolution returns an existing path. -/
theorem bundledFfmpegResolve_ok_exists (env : FfmpegEnv) (dirName p : String)
    (h : bundledFfmpegResolve env dirName = .ok p) :
    env.fsExists p = true := by
  unfold bundledFfmpegResolve at h
  rcases hp : ffmpegPrimaryPath env with e | p0
  · rw [hp] at h
    cases h
  · rw [hp] at h
    simp only at h
    split_ifs at h with h1 h2
    cases h
    simpa using h1

/-- C8: `getFFmpegPath` never fails hard — its result type is a bare
path string, every throw inside the try block (bundled binary absent,
or present but not executable) lands in the catch, which falls back to
the unverified system binary name — and the first returned value is
cached and returned unchanged by every subsequent call, whatever the
environment then looks like. -/
theorem c8_getFFmpegPath_total_and_cached (env : FfmpegEnv)
    (dirName : String) (hempty : env.fsExists "" = false) :
    (∀ e, bundledFfmpegResolve env dirName = .error e →
      (getFFmpegPath env dirName none).1 = ffmpegBinaryName env.win32) ∧
    (getFFmpegPath env dirName none).1 ≠ "" ∧
    (∀ (env2 : FfmpegEnv) (dirName2 : String),
      getFFmpegPath env2 dirName2 (getFFmpegPath env dirName none).2 =
        ((getFFmpegPath env dirName none).1,
         (getFFmpegPath env dirName none).2)) := by
  have hne : getFFmpegPathCompute env dirName ≠ "" := by
    unfold getFFmpegPathCompute
    rcases hb : bundledFfmpegResolve env dirName with e | p
    · by_cases hw : env.win32 <;> simp [ffmpegBinaryName, hw]
    · intro hp
      change p = "" at hp
      have hex := bundledFfmpegResolve_ok_exists env dirName p hb
      rw [hp, hempty] at hex
      cases hex
  refine ⟨?_, hne, ?_⟩
  · intro e he
    show getFFmpegPathCompute env dirName = _
    unfold getFFmpegPathCompute
    rw [he]
  · intro env2 dirName2
    simp [getFFmpegPath, hne]

/-! ## Concrete witnesses -/

/-- A concrete resolution environment: one absolute candidate missing
on disk, one spawn failure, one unsupported interpreter, one supported
interpreter, and one supported interpreter after it. -/
def pyEnvW : PyEnv where
  isAbs s := s.toList.head? == some '/'
  fsExists s := s == "/usr/bin/python3"
  probe s :=
    if s == "badpy" then .spawnError
    else if s == "python2" then .exited 0 "Python 2.7.18"
    else if s == "/usr/bin/python3" then .exited 0 "Python 3.11.4"
    else if s == "python3" then .exited 0 "Python 3.10.0"
    else .exited 1 "err"

/-- The candidate list for the witness environment. -/
def pyCandidatesW : List String :=
  ["/opt/missing/python3", "badpy", "python2", "/usr/bin/python3", "python3"]

/-- C1 witness: in the concrete environment, resolution returns the
first supported candidate; the missing absolute path is never probed
and the candidate after the winner is never probed. -/
theorem c1_witness :
    (findPythonExecutable pyEnvW pyCandidatesW).1 = some "/usr/bin/python3" ∧
    (findPythonExecutable pyEnvW pyCandidatesW).2 =
      ["badpy", "python2", "/usr/bin/python3"] := by
  have h := c1_findPythonExecutable_first_supported pyEnvW pyCandidatesW
  exact ⟨h.1.trans (by rfl), h.2.1.trans (by rfl)⟩

/-- C2 witness: the amended settlement theorem applied to the
timeout-then-close trace. -/
theorem c2_witness :
    (rwRun "out" "" false [.timeoutFire, .close (some 0)]).promise =
      some (.rejected timeoutMessage) ∧
    (rwRun "out" "" false [.timeoutFire, .close (some 0)]).settleCalls ≤ 2 := by
  have h := c2_runWhisperProcess_single_settlement "out" "" false
    [.timeoutFire, .close (some 0)] (by decide)
  exact ⟨h.1.trans (by rfl), h.2.1⟩

/-- C4 witness: the amended chain theorem applied on darwin to the
always-permission-denied environment, and on another platform. -/
theorem c4_witness :
    (installWhisper true permFailExec).2.head? = some ⟨true, false⟩ ∧
    ((installWhisper true permFailExec).2.drop 1).Nodup ∧
    (installWhisper false permFailExec).2.Nodup := by
  have h := c4_installWhisper_strategy_chain true permFailExec
  have h2 := c4_installWhisper_strategy_chain false permFailExec
  exact ⟨(h.2 rfl).1, (h.2 rfl).2.1, h2.1 rfl⟩

/-- C5 witness: the classification theorem applied to a whitespace-only
text result (soft outcome, no throw) and the noise-invariance part
applied to a concrete noisy stdout. -/
theorem c5_witness :
    parseWhisperResult "\x7b\"success\":true,\"text\":\"   \"\x7d" =
      .ok (.soft (.str emptyTextMessage)) ∧
    parseWhisperLines
        ["noise", "\x7b\"success\":true,\"text\":\"hi\"\x7d", "trail"] =
      parseWhisperLines ["\x7b\"success\":true,\"text\":\"hi\"\x7d"] := by
  have h := c5_parseWhisperResult_line_scan
    "\x7b\"success\":true,\"text\":\"   \"\x7d"
  constructor
  · exact ((h.2.1 "\x7b\"success\":true,\"text\":\"   \"\x7d"
      (Json.obj [("success", Json.bool true), ("text", Json.str "   ")])
      rfl rfl).2 rfl rfl)
  · refine h.2.2 ["noise"] "\x7b\"success\":true,\"text\":\"hi\"\x7d" ["trail"]
      ?_ (by decide)
    intro n hn
    have : n = "noise" := by
      cases hn with
      | head => rfl
      | tail _ hmem => cases hmem
    rw [this]
    decide

/-- C6 witness: a number input is rejected as unsupported, and a
zero-byte buffer fails fast before the worker is spawned. -/
theorem c6_witness :
    (createTempAudioFile "/tmp" "u" (.numVal 5) pipeInit).1 =
      .error "Unsupported audio data type: number" ∧
    (transcribeLocalWhisper true "" "/tmp" "u" (.uint8Array []) (.ok "")
        false).1 = .error "Audio file is empty" ∧
    (transcribeLocalWhisper true "" "/tmp" "u" (.uint8Array []) (.ok "")
        false).2.workerSpawned = false := by
  have h1 := c6_createTempAudioFile_contract "/tmp" "u" (.numVal 5) pipeInit
  have h2 := c6_createTempAudioFile_contract "/tmp" "u" (.uint8Array [])
    pipeInit
  exact ⟨(h1.2.1 (by rfl)).1, (h2.2.2.2 rfl (.ok "") false).1,
    (h2.2.2.2 rfl (.ok "") false).2⟩

/-- A concrete locator environment in which nothing exists on disk. -/
def ffmpegEnvW : FfmpegEnv where
  nodeEnvDevelopment := false
  resourcesPath := some "/res"
  win32 := false
  requireFfmpegStatic := none
  fsExists := fun _ => false
  fsExecutable := fun _ => false

/-- C8 witness: in the bare environment the locator still returns the
system binary name, and the second call returns the cached value. -/
theorem c8_witness :
    (getFFmpegPath ffmpegEnvW "/dir" none).1 = "ffmpeg" ∧
    getFFmpegPath ffmpegEnvW "/dir" (getFFmpegPath ffmpegEnvW "/dir" none).2 =
      ("ffmpeg", some "ffmpeg") := by
  have h := c8_getFFmpegPath_total_and_cached ffmpegEnvW "/dir" rfl
  have h1 : (getFFmpegPath ffmpegEnvW "/dir" none).1 = "ffmpeg" :=
    (h.1 ("Bundled FFmpeg not found at /res/app.asar.unpacked/node_modules/ffmpeg-static/ffmpeg")
      (by rfl)).trans (by rfl)
  refine ⟨h1, ?_⟩
  have h2 := h.2.2 ffmpegEnvW "/dir"
  rw [h2, h1]
  rfl

/-- C9 witness: a concrete success result carries the trimmed, non-empty
text. -/
theorem c9_witness :
    parseWhisperResult "\x7b\"success\":true,\"text\":\" hi \"\x7d" =
      .ok (.success "hi") ∧ "hi" ≠ "" := by
  have h := c9_parseWhisperResult_success_text_trimmed
    "\x7b\"success\":true,\"text\":\" hi \"\x7d" "hi" rfl
  obtain ⟨l, j, s, hfind, hjson, htext, hts, hne⟩ := h
  exact ⟨rfl, hne⟩

end OpenTranscript
